import Mathlib

/-!
Shallow embedding of `src/app.py` (a WMTS tile fetcher).

Coordinates are modelled as rationals: the Python code computes with floats,
and every claim under study is about the real-number semantics of the
formulas in the source (the spec's epsilon policy is stated over exact
grid-line hits), so ℚ is the faithful exact model.  Integer tile indices are
ℤ and `math.floor` is `Int.floor`.

The network client (`owslib`) and the filesystem are external collaborators:
construction-time capability validation is modelled by finite association
lists standing for the `owslib` dictionaries, and the generator `fetch` is
modelled by the trace of observable events (temp-dir creation, per-tile
retrieval, yields, cleanup) it performs for a given consumer behaviour.
-/

namespace Amstelkant

/-- A coordinate in the Rijksdriehoek coordinate system (`Rijksdriehoek`,
lines 25-32 of `src/app.py`). -/
structure Rijksdriehoek where
  x : ℚ
  y : ℚ
deriving DecidableEq

/-- A region between a lower and an upper coordinate (`BoundingBox`,
lines 35-39). -/
structure BoundingBox where
  lower : Rijksdriehoek
  upper : Rijksdriehoek
deriving DecidableEq

/-- A coordinate in the tile matrix coordinate system (`TileIndex`,
lines 42-46).  `row` is vertical. -/
structure TileIndex where
  row : ℤ
  col : ℤ
deriving DecidableEq

/-- A fetched tile (`Tile`, lines 49-53): index, path of the downloaded
image, and the tile's bounding box. -/
structure Tile where
  index : TileIndex
  filename : String
  bbox : BoundingBox
deriving DecidableEq

/-- The metadata record `self.matrix` of a `TileMatrix`: exactly the fields
of the WMTS tile-matrix metadata that `src/app.py` reads. -/
structure TileMatrixMeta where
  scaledenominator : ℚ
  tilewidth : ℕ
  tileheight : ℕ
  matrixwidth : ℤ
  matrixheight : ℤ
  topleftcorner : ℚ × ℚ
deriving DecidableEq

/-- A constructed `TileMatrix`: the geometry operations read `self.matrix`
(and the spans derived from it), `fetch` additionally reads the image
format (line 78). -/
structure TileMatrix where
  matrix : TileMatrixMeta
  format : String
deriving DecidableEq

/-- `self.pixel_span = self.matrix.scaledenominator * 0.28 * 1e-3`
(line 97). -/
def TileMatrix.pixel_span (tm : TileMatrix) : ℚ :=
  tm.matrix.scaledenominator * (28 / 100000)

/-- `self.span_x = self.matrix.tilewidth * self.pixel_span` (line 98). -/
def TileMatrix.span_x (tm : TileMatrix) : ℚ :=
  tm.matrix.tilewidth * tm.pixel_span

/-- `self.span_y = self.matrix.tileheight * self.pixel_span` (line 99). -/
def TileMatrix.span_y (tm : TileMatrix) : ℚ :=
  tm.matrix.tileheight * tm.pixel_span

/-- `_rd_to_tile` (lines 105-110): maps one RD coordinate to an unrounded
(fractional) `(row, col)` pair. -/
def TileMatrix.rd_to_tile (tm : TileMatrix) (xy : Rijksdriehoek) : ℚ × ℚ :=
  ((tm.matrix.topleftcorner.2 - xy.y) / tm.span_y,
   (xy.x - tm.matrix.topleftcorner.1) / tm.span_x)

/-- The epsilon of `bbox_tiles` (line 122): `eps = 1e-6`. -/
def eps : ℚ := 1 / 1000000

/-- `row_min = max(floor(row_min + eps), 0)` (line 123); the unrounded
`row_min` comes from `_rd_to_tile(bbox.upper)` (line 120). -/
def TileMatrix.row_min (tm : TileMatrix) (bbox : BoundingBox) : ℤ :=
  max ⌊(tm.rd_to_tile bbox.upper).1 + eps⌋ 0

/-- `col_min = max(floor(col_min + eps), 0)` (line 124); the unrounded
`col_min` comes from `_rd_to_tile(bbox.lower)` (line 119). -/
def TileMatrix.col_min (tm : TileMatrix) (bbox : BoundingBox) : ℤ :=
  max ⌊(tm.rd_to_tile bbox.lower).2 + eps⌋ 0

/-- `row_max = min(floor(row_max - eps), matrix_height - 1)` (line 125);
the unrounded `row_max` comes from `_rd_to_tile(bbox.lower)` (line 119). -/
def TileMatrix.row_max (tm : TileMatrix) (bbox : BoundingBox) : ℤ :=
  min ⌊(tm.rd_to_tile bbox.lower).1 - eps⌋ (tm.matrix.matrixheight - 1)

/-- `col_max = min(floor(col_max - eps), matrix_width - 1)` (line 126);
the unrounded `col_max` comes from `_rd_to_tile(bbox.upper)` (line 120). -/
def TileMatrix.col_max (tm : TileMatrix) (bbox : BoundingBox) : ℤ :=
  min ⌊(tm.rd_to_tile bbox.upper).2 - eps⌋ (tm.matrix.matrixwidth - 1)

/-- Python `range(a, b + 1)` as a list of integers (empty when `b < a`),
embedding the two `range` calls of lines 129-130. -/
def intRange (a b : ℤ) : List ℤ :=
  (List.range (b + 1 - a).toNat).map (fun (n : ℕ) => a + (n : ℤ))

/-- `bbox_tiles` (lines 101-130): the row-major cross-product
`TileIndex(row, col) for row in range(row_min, row_max + 1)
for col in range(col_min, col_max + 1)`, materialised as a list. -/
def TileMatrix.bbox_tiles (tm : TileMatrix) (bbox : BoundingBox) : List TileIndex :=
  (intRange (tm.row_min bbox) (tm.row_max bbox)).flatMap
    (fun row => (intRange (tm.col_min bbox) (tm.col_max bbox)).map
      (fun col => ⟨row, col⟩))

/-- `tile_bbox` (lines 159-169): maps a tile index to its Rijksdriehoek
bounding box. -/
def TileMatrix.tile_bbox (tm : TileMatrix) (tile : TileIndex) : BoundingBox :=
  let x_min := tile.col * tm.span_x + tm.matrix.topleftcorner.1
  let y_max := tm.matrix.topleftcorner.2 - tile.row * tm.span_y
  ⟨⟨x_min, y_max - tm.span_y⟩, ⟨x_min + tm.span_x, y_max⟩⟩

/-- The bounding box lies fully inside the grid of the matrix: between the
grid's top-left corner and its opposite corner
(`matrix_width * span_x` across, `matrix_height * span_y` down). -/
def TileMatrix.inGrid (tm : TileMatrix) (bbox : BoundingBox) : Prop :=
  tm.matrix.topleftcorner.1 ≤ bbox.lower.x ∧
  bbox.upper.x ≤ tm.matrix.topleftcorner.1 + tm.matrix.matrixwidth * tm.span_x ∧
  tm.matrix.topleftcorner.2 - tm.matrix.matrixheight * tm.span_y ≤ bbox.lower.y ∧
  bbox.upper.y ≤ tm.matrix.topleftcorner.2

/-! ### Construction-time capability validation (lines 60-96)

The `owslib` capability dictionaries are modelled as association lists.
The Python constructor raises `AssertionError` with the quoted message at
the first failing check (lines 80-87); after the checks it looks up the
metadata record for the zoom level (lines 94-96), which raises `KeyError`
when the level is absent.  Failure is modelled with `Except String`. -/

/-- One entry of `wmts.contents`: the per-layer capability record with the
two fields the constructor reads (`tilematrixsetlinks`, `formats`). -/
structure ContentsLayer where
  tilematrixsetlinks : List String
  formats : List String

/-- One entry of `wmts.tilematrixsets`: the per-scheme dictionary of
tile-matrix metadata keyed by zoom level. -/
structure TileMatrixSet where
  tilematrix : List (String × TileMatrixMeta)

/-- The declared capabilities of the service (`self.wmts`). -/
structure WebMapTileService where
  contents : List (String × ContentsLayer)
  tilematrixsets : List (String × TileMatrixSet)

/-- `TileMatrix.__init__` (lines 60-99): the four capability assertions in
source order, then the zoom-level metadata lookup. -/
def mkTileMatrix (wmts : WebMapTileService) (layer tile_system tile_level fmt : String) :
    Except String TileMatrix :=
  match wmts.contents.lookup layer with
  | none => .error "Layer not found."
  | some content =>
    match wmts.tilematrixsets.lookup tile_system with
    | none => .error "Tile matrix set not found."
    | some tms =>
      if tile_system ∈ content.tilematrixsetlinks then
        if fmt ∈ content.formats then
          match tms.tilematrix.lookup tile_level with
          | none => .error "KeyError"
          | some m => .ok ⟨m, fmt⟩
        else .error "Unsupported format."
      else .error "Tile system not found."

/-! ### Fetch orchestration (lines 132-157)

`fetch` is a Python generator: its body runs only while the consumer pulls.
The embedding records the observable events of one run, parameterised by
the consumer's behaviour (`pulls` = number of `next()` calls) and by the
point at which an individual tile retrieval raises (`failAt`, a position in
iteration order, or `none`).  `mkdtemp` happens on the first pull; each
pull performs one retrieval (`gettile`, i.e. `fetch_tile`) and yields a
`Tile`; when the index sequence is exhausted the pending pull runs the
`shutil.rmtree` cleanup line; abandoning the generator or an exception in
`fetch_tile` leaves the function mid-body, so the cleanup line after the
loop never runs (there is no try/finally). -/

/-- An observable event of one `fetch` run. -/
inductive FetchEvent where
  | mkdtemp : FetchEvent
  | gettile : TileIndex → String → FetchEvent
  | yielded : Tile → FetchEvent
  | rmtree : FetchEvent
deriving DecidableEq

/-- `os.path.join` for the temp dir and the tile image name. -/
def joinpath (a b : String) : String := a ++ "/" ++ b

/-- `ext = self.format.split('/')[-1]` (line 138). -/
def formatExt (fmt : String) : String := (fmt.splitOn "/").getLastD ""

/-- The filename of line 140: `joinpath(dir_path, f'{row}_{col}.{ext}')`. -/
def tileFilename (dir_path : String) (index : TileIndex) (ext : String) : String :=
  joinpath dir_path (toString index.row ++ "_" ++ toString index.col ++ "." ++ ext)

/-- The event trace of the `for` loop of lines 139-143, given the remaining
plan, the remaining pulls the consumer will make, the position of the
failing retrieval (if any) and the current position `k`. -/
def fetchRun (tm : TileMatrix) (dir_path : String) (plan : List TileIndex)
    (pulls : ℕ) (failAt : Option ℕ) (k : ℕ) : List FetchEvent :=
  match pulls, plan with
  | 0, _ => []
  | _ + 1, [] => [FetchEvent.rmtree]
  | pulls + 1, index :: rest =>
    let filename := tileFilename dir_path index (formatExt tm.format)
    if failAt = some k then
      [FetchEvent.gettile index filename]
    else
      FetchEvent.gettile index filename ::
        FetchEvent.yielded ⟨index, filename, tm.tile_bbox index⟩ ::
          fetchRun tm dir_path rest pulls failAt (k + 1)

/-- The full event trace of one run of `fetch` (lines 132-143): nothing
happens before the first pull; the first pull executes `mkdtemp` and enters
the loop over `bbox_tiles`. -/
def TileMatrix.fetchTrace (tm : TileMatrix) (dir_path : String) (bbox : BoundingBox)
    (pulls : ℕ) (failAt : Option ℕ) : List FetchEvent :=
  match pulls with
  | 0 => []
  | _ => FetchEvent.mkdtemp :: fetchRun tm dir_path (tm.bbox_tiles bbox) pulls failAt 0

/-- The run attempted at least one tile retrieval. -/
def performsRetrieval (events : List FetchEvent) : Prop :=
  ∃ index filename, FetchEvent.gettile index filename ∈ events

/-- A concrete matrix realising the spec's worked example: spans 100 × 100,
top-left corner `(0, 1000)`, a 10 × 10 grid.
`pixel_span = (10000/7) * (28/100000) = 2/5` and `span = 250 * (2/5) = 100`. -/
def tmEx : TileMatrix :=
  ⟨{ scaledenominator := 10000 / 7
     tilewidth := 250
     tileheight := 250
     matrixwidth := 10
     matrixheight := 10
     topleftcorner := (0, 1000) }, "image/jpeg"⟩

/-- The spec's worked-example query box: lower `(0, 0)`, upper `(250, 1000)`. -/
def bEx : BoundingBox := ⟨⟨0, 0⟩, ⟨250, 1000⟩⟩

/-- A zero-area box at `(100, 500)`: inside the grid of `tmEx`, with the
point exactly on a vertical tile boundary (`x = 100` is the line between
columns 0 and 1, `y = 500` the line between rows 4 and 5). -/
def bPoint : BoundingBox := ⟨⟨100, 500⟩, ⟨100, 500⟩⟩

/-- A very thin valid box inside the grid of `tmEx` whose top edge lies
exactly on the grid line `y = 900` (row boundary 1) and whose height is
`eps / 2` in fractional-row units (`1/20000` metres). -/
def bThin : BoundingBox := ⟨⟨10, 900 - 1 / 20000⟩, ⟨90, 900⟩⟩

/-- A box entirely outside the grid of `tmEx` (negative coordinates). -/
def bOutside : BoundingBox := ⟨⟨-500, -500⟩, ⟨-400, -400⟩⟩

/-- A malformed box: `lower.x > upper.x` and `lower.y > upper.y`, both
inversions smaller than one tile span. -/
def bMalformed : BoundingBox := ⟨⟨50, 60⟩, ⟨40, 50⟩⟩

/-- A malformed box whose y-inversion (200) is at least `span_y` (100). -/
def bInverted : BoundingBox := ⟨⟨10, 700⟩, ⟨90, 500⟩⟩

/-- A well-formed box inside the grid of `tmEx` whose top edge lies exactly
on the grid line `y = 900` (row boundary 1). -/
def bEdge : BoundingBox := ⟨⟨10, 700⟩, ⟨90, 900⟩⟩

/-- A box strictly inside the single tile `(0, 0)` of `tmEx`. -/
def bOne : BoundingBox := ⟨⟨10, 910⟩, ⟨90, 990⟩⟩

/-- A thick box inside the grid of `tmEx`, crossing several tiles. -/
def bIn : BoundingBox := ⟨⟨10, 10⟩, ⟨240, 990⟩⟩

/-- A capabilities record for the construction claims: one layer `lufo_rd`
linked to scheme `nl_grid` with format `image/jpeg`, and the scheme offers
zoom level `12`. -/
def wEx : WebMapTileService :=
  ⟨[("lufo_rd", ⟨["nl_grid"], ["image/jpeg"]⟩)], [("nl_grid", ⟨[("12", tmEx.matrix)]⟩)]⟩

/-! ### Basic lemmas about the embedding -/

theorem eps_pos : (0 : ℚ) < eps := by norm_num [eps]

theorem mem_intRange {a b x : ℤ} : x ∈ intRange a b ↔ a ≤ x ∧ x ≤ b := by
  constructor
  · intro hx
    obtain ⟨n, hn, rfl⟩ := List.mem_map.mp hx
    rw [List.mem_range] at hn
    omega
  · intro h
    refine List.mem_map.mpr ⟨(x - a).toNat, ?_, ?_⟩
    · rw [List.mem_range]
      omega
    · omega

theorem floor_int_add_eps (k : ℤ) : ⌊(k : ℚ) + eps⌋ = k := by
  rw [add_comm, Int.floor_add_int, show ⌊eps⌋ = 0 from ?_]
  · ring
  · rw [Int.floor_eq_iff]
    norm_num [eps]

theorem floor_int_sub_eps (k : ℤ) : ⌊(k : ℚ) - eps⌋ = k - 1 := by
  rw [show (k : ℚ) - eps = -eps + k by ring, Int.floor_add_int,
    show ⌊-eps⌋ = -1 from ?_]
  · ring
  · rw [Int.floor_eq_iff]
    norm_num [eps]

theorem mem_bbox_tiles {tm : TileMatrix} {bbox : BoundingBox} {i : TileIndex} :
    i ∈ tm.bbox_tiles bbox ↔
      tm.row_min bbox ≤ i.row ∧ i.row ≤ tm.row_max bbox ∧
      tm.col_min bbox ≤ i.col ∧ i.col ≤ tm.col_max bbox := by
  obtain ⟨r, c⟩ := i
  unfold TileMatrix.bbox_tiles
  simp only [List.mem_flatMap, List.mem_map, mem_intRange, TileIndex.mk.injEq]
  constructor
  · rintro ⟨row, ⟨h1, h2⟩, col, ⟨h3, h4⟩, rfl, rfl⟩
    exact ⟨h1, h2, h3, h4⟩
  · rintro ⟨h1, h2, h3, h4⟩
    exact ⟨r, ⟨h1, h2⟩, c, ⟨h3, h4⟩, rfl, rfl⟩

theorem bbox_tiles_eq_nil {tm : TileMatrix} {bbox : BoundingBox}
    (h : tm.row_max bbox < tm.row_min bbox ∨ tm.col_max bbox < tm.col_min bbox) :
    tm.bbox_tiles bbox = [] := by
  rw [List.eq_nil_iff_forall_not_mem]
  intro i hi
  rw [mem_bbox_tiles] at hi
  rcases h with h | h <;> omega

theorem row_min_nonneg (tm : TileMatrix) (bbox : BoundingBox) : 0 ≤ tm.row_min bbox :=
  le_max_right _ _

theorem col_min_nonneg (tm : TileMatrix) (bbox : BoundingBox) : 0 ≤ tm.col_min bbox :=
  le_max_right _ _

theorem row_max_le (tm : TileMatrix) (bbox : BoundingBox) :
    tm.row_max bbox ≤ tm.matrix.matrixheight - 1 :=
  min_le_right _ _

theorem col_max_le (tm : TileMatrix) (bbox : BoundingBox) :
    tm.col_max bbox ≤ tm.matrix.matrixwidth - 1 :=
  min_le_right _ _

/-! Evaluation lemmas: compute the four clamped bounds from rational
bracketing facts that `norm_num` can discharge on concrete inputs. -/

theorem row_min_eval {tm : TileMatrix} {bbox : BoundingBox} {k : ℤ}
    (h1 : (k : ℚ) ≤ (tm.rd_to_tile bbox.upper).1 + eps)
    (h2 : (tm.rd_to_tile bbox.upper).1 + eps < (k : ℚ) + 1)
    (h3 : 0 ≤ k) : tm.row_min bbox = k := by
  unfold TileMatrix.row_min
  rw [Int.floor_eq_iff.mpr ⟨h1, h2⟩]
  exact max_eq_left h3

theorem col_min_eval {tm : TileMatrix} {bbox : BoundingBox} {k : ℤ}
    (h1 : (k : ℚ) ≤ (tm.rd_to_tile bbox.lower).2 + eps)
    (h2 : (tm.rd_to_tile bbox.lower).2 + eps < (k : ℚ) + 1)
    (h3 : 0 ≤ k) : tm.col_min bbox = k := by
  unfold TileMatrix.col_min
  rw [Int.floor_eq_iff.mpr ⟨h1, h2⟩]
  exact max_eq_left h3

theorem row_max_eval {tm : TileMatrix} {bbox : BoundingBox} {k : ℤ}
    (h1 : (k : ℚ) ≤ (tm.rd_to_tile bbox.lower).1 - eps)
    (h2 : (tm.rd_to_tile bbox.lower).1 - eps < (k : ℚ) + 1)
    (h3 : k ≤ tm.matrix.matrixheight - 1) : tm.row_max bbox = k := by
  unfold TileMatrix.row_max
  rw [Int.floor_eq_iff.mpr ⟨h1, h2⟩]
  exact min_eq_left h3

theorem col_max_eval {tm : TileMatrix} {bbox : BoundingBox} {k : ℤ}
    (h1 : (k : ℚ) ≤ (tm.rd_to_tile bbox.upper).2 - eps)
    (h2 : (tm.rd_to_tile bbox.upper).2 - eps < (k : ℚ) + 1)
    (h3 : k ≤ tm.matrix.matrixwidth - 1) : tm.col_max bbox = k := by
  unfold TileMatrix.col_max
  rw [Int.floor_eq_iff.mpr ⟨h1, h2⟩]
  exact min_eq_left h3

/-! Fractional coordinates of an in-grid, sufficiently thick box. -/

theorem frac_bounds {tm : TileMatrix} {bbox : BoundingBox}
    (hsx : 0 < tm.span_x) (hsy : 0 < tm.span_y) (h : tm.inGrid bbox) :
    0 ≤ (tm.rd_to_tile bbox.upper).1 ∧
    (tm.rd_to_tile bbox.lower).1 ≤ (tm.matrix.matrixheight : ℚ) ∧
    0 ≤ (tm.rd_to_tile bbox.lower).2 ∧
    (tm.rd_to_tile bbox.upper).2 ≤ (tm.matrix.matrixwidth : ℚ) := by
  obtain ⟨h1, h2, h3, h4⟩ := h
  unfold TileMatrix.rd_to_tile
  refine ⟨div_nonneg (by linarith) hsy.le, ?_, div_nonneg (by linarith) hsx.le, ?_⟩
  · rw [div_le_iff₀ hsy]
    linarith
  · rw [div_le_iff₀ hsx]
    linarith

theorem frac_gap_row {tm : TileMatrix} {bbox : BoundingBox} (hsy : 0 < tm.span_y)
    (ht : 2 * eps * tm.span_y ≤ bbox.upper.y - bbox.lower.y) :
    (tm.rd_to_tile bbox.upper).1 + eps ≤ (tm.rd_to_tile bbox.lower).1 - eps := by
  unfold TileMatrix.rd_to_tile
  have h2 : 2 * eps ≤ (bbox.upper.y - bbox.lower.y) / tm.span_y := by
    rw [le_div_iff₀ hsy]
    linarith
  have h3 : (tm.matrix.topleftcorner.2 - bbox.lower.y) / tm.span_y
      - (tm.matrix.topleftcorner.2 - bbox.upper.y) / tm.span_y
      = (bbox.upper.y - bbox.lower.y) / tm.span_y := by
    rw [div_sub_div_same,
      show tm.matrix.topleftcorner.2 - bbox.lower.y
        - (tm.matrix.topleftcorner.2 - bbox.upper.y) = bbox.upper.y - bbox.lower.y by ring]
  simp only
  linarith

theorem frac_gap_col {tm : TileMatrix} {bbox : BoundingBox} (hsx : 0 < tm.span_x)
    (ht : 2 * eps * tm.span_x ≤ bbox.upper.x - bbox.lower.x) :
    (tm.rd_to_tile bbox.lower).2 + eps ≤ (tm.rd_to_tile bbox.upper).2 - eps := by
  unfold TileMatrix.rd_to_tile
  have h2 : 2 * eps ≤ (bbox.upper.x - bbox.lower.x) / tm.span_x := by
    rw [le_div_iff₀ hsx]
    linarith
  have h3 : (bbox.upper.x - tm.matrix.topleftcorner.1) / tm.span_x
      - (bbox.lower.x - tm.matrix.topleftcorner.1) / tm.span_x
      = (bbox.upper.x - bbox.lower.x) / tm.span_x := by
    rw [div_sub_div_same,
      show bbox.upper.x - tm.matrix.topleftcorner.1
        - (bbox.lower.x - tm.matrix.topleftcorner.1) = bbox.upper.x - bbox.lower.x by ring]
  simp only
  linarith

/-- For an in-grid box at least `2 * eps` thick (in fractional units) in
both axes, the clamps of lines 123-126 are inactive and the index ranges
are non-empty. -/
theorem bounds_pack {tm : TileMatrix} {bbox : BoundingBox}
    (hsx : 0 < tm.span_x) (hsy : 0 < tm.span_y) (hin : tm.inGrid bbox)
    (htx : 2 * eps * tm.span_x ≤ bbox.upper.x - bbox.lower.x)
    (hty : 2 * eps * tm.span_y ≤ bbox.upper.y - bbox.lower.y) :
    tm.row_min bbox = ⌊(tm.rd_to_tile bbox.upper).1 + eps⌋ ∧
    tm.row_max bbox = ⌊(tm.rd_to_tile bbox.lower).1 - eps⌋ ∧
    tm.col_min bbox = ⌊(tm.rd_to_tile bbox.lower).2 + eps⌋ ∧
    tm.col_max bbox = ⌊(tm.rd_to_tile bbox.upper).2 - eps⌋ ∧
    tm.row_min bbox ≤ tm.row_max bbox ∧ tm.col_min bbox ≤ tm.col_max bbox := by
  obtain ⟨hU, hL, hcl, hcu⟩ := frac_bounds hsx hsy hin
  have hgr := frac_gap_row hsy hty
  have hgc := frac_gap_col hsx htx
  have heps := eps_pos
  have e1 : tm.row_min bbox = ⌊(tm.rd_to_tile bbox.upper).1 + eps⌋ :=
    max_eq_left (Int.floor_nonneg.mpr (by linarith))
  have e2 : tm.row_max bbox = ⌊(tm.rd_to_tile bbox.lower).1 - eps⌋ := by
    refine min_eq_left ?_
    have : ⌊(tm.rd_to_tile bbox.lower).1 - eps⌋ < tm.matrix.matrixheight :=
      Int.floor_lt.mpr (by linarith)
    omega
  have e3 : tm.col_min bbox = ⌊(tm.rd_to_tile bbox.lower).2 + eps⌋ :=
    max_eq_left (Int.floor_nonneg.mpr (by linarith))
  have e4 : tm.col_max bbox = ⌊(tm.rd_to_tile bbox.upper).2 - eps⌋ := by
    refine min_eq_left ?_
    have : ⌊(tm.rd_to_tile bbox.upper).2 - eps⌋ < tm.matrix.matrixwidth :=
      Int.floor_lt.mpr (by linarith)
    omega
  refine ⟨e1, e2, e3, e4, ?_, ?_⟩
  · rw [e1, e2]
    exact Int.floor_le_floor hgr
  · rw [e3, e4]
    exact Int.floor_le_floor hgc

theorem tmEx_span_x : tmEx.span_x = 100 := by
  norm_num [tmEx, TileMatrix.span_x, TileMatrix.pixel_span]

theorem tmEx_span_y : tmEx.span_y = 100 := by
  norm_num [tmEx, TileMatrix.span_y, TileMatrix.pixel_span]

/-! ### Claim theorems -/

/-- C3: for the matrix with spans `100 × 100`, top-left `(0, 1000)` and a
`10 × 10` grid, `bbox_tiles` on the box `lower = (0,0)`, `upper = (250,1000)`
yields exactly the 30 indices with `row ∈ 0..9` and `col ∈ 0..2`. -/
theorem bbox_tiles_worked_example :
    (tmEx.bbox_tiles bEx).length = 30 ∧
    ∀ i : TileIndex, i ∈ tmEx.bbox_tiles bEx ↔
      0 ≤ i.row ∧ i.row ≤ 9 ∧ 0 ≤ i.col ∧ i.col ≤ 2 := by
  have r1 : tmEx.row_min bEx = 0 :=
    row_min_eval
      (by norm_num [TileMatrix.rd_to_tile, tmEx, bEx, TileMatrix.span_y, TileMatrix.pixel_span, eps])
      (by norm_num [TileMatrix.rd_to_tile, tmEx, bEx, TileMatrix.span_y, TileMatrix.pixel_span, eps])
      (by norm_num)
  have r2 : tmEx.row_max bEx = 9 :=
    row_max_eval
      (by norm_num [TileMatrix.rd_to_tile, tmEx, bEx, TileMatrix.span_y, TileMatrix.pixel_span, eps])
      (by norm_num [TileMatrix.rd_to_tile, tmEx, bEx, TileMatrix.span_y, TileMatrix.pixel_span, eps])
      (by norm_num [tmEx])
  have r3 : tmEx.col_min bEx = 0 :=
    col_min_eval
      (by norm_num [TileMatrix.rd_to_tile, tmEx, bEx, TileMatrix.span_x, TileMatrix.pixel_span, eps])
      (by norm_num [TileMatrix.rd_to_tile, tmEx, bEx, TileMatrix.span_x, TileMatrix.pixel_span, eps])
      (by norm_num)
  have r4 : tmEx.col_max bEx = 2 :=
    col_max_eval
      (by norm_num [TileMatrix.rd_to_tile, tmEx, bEx, TileMatrix.span_x, TileMatrix.pixel_span, eps])
      (by norm_num [TileMatrix.rd_to_tile, tmEx, bEx, TileMatrix.span_x, TileMatrix.pixel_span, eps])
      (by norm_num [tmEx])
  constructor
  · unfold TileMatrix.bbox_tiles
    rw [r1, r2, r3, r4]
    decide
  · intro i
    rw [mem_bbox_tiles, r1, r2, r3, r4]

/-- C10: for every TileMatrix with strictly positive `span_x` and `span_y`
and every TileIndex with arbitrary integer `row` and `col`, `tile_bbox`
returns a box with `lower.x ≤ upper.x`, `lower.y ≤ upper.y`, of width
exactly `span_x` and height exactly `span_y`. -/
theorem tile_bbox_invariant (tm : TileMatrix) (tile : TileIndex)
    (hsx : 0 < tm.span_x) (hsy : 0 < tm.span_y) :
    (tm.tile_bbox tile).lower.x ≤ (tm.tile_bbox tile).upper.x ∧
    (tm.tile_bbox tile).lower.y ≤ (tm.tile_bbox tile).upper.y ∧
    (tm.tile_bbox tile).upper.x - (tm.tile_bbox tile).lower.x = tm.span_x ∧
    (tm.tile_bbox tile).upper.y - (tm.tile_bbox tile).lower.y = tm.span_y := by
  unfold TileMatrix.tile_bbox
  refine ⟨by simp only; linarith, by simp only; linarith, by simp only; ring,
    by simp only; ring⟩

theorem tile_bbox_invariant_witness :
    0 < tmEx.span_x ∧ 0 < tmEx.span_y ∧
    ((tmEx.tile_bbox ⟨-3, 17⟩).lower.x ≤ (tmEx.tile_bbox ⟨-3, 17⟩).upper.x ∧
     (tmEx.tile_bbox ⟨-3, 17⟩).lower.y ≤ (tmEx.tile_bbox ⟨-3, 17⟩).upper.y ∧
     (tmEx.tile_bbox ⟨-3, 17⟩).upper.x - (tmEx.tile_bbox ⟨-3, 17⟩).lower.x = tmEx.span_x ∧
     (tmEx.tile_bbox ⟨-3, 17⟩).upper.y - (tmEx.tile_bbox ⟨-3, 17⟩).lower.y = tmEx.span_y) :=
  ⟨by rw [tmEx_span_x]; norm_num, by rw [tmEx_span_y]; norm_num,
   tile_bbox_invariant tmEx ⟨-3, 17⟩ (by rw [tmEx_span_x]; norm_num)
     (by rw [tmEx_span_y]; norm_num)⟩

/-- C5: for every box whose clamped bounds satisfy `row_min > row_max` or
`col_min > col_max` (as happens for a box entirely outside the grid),
`bbox_tiles` yields the empty sequence: no negative-count cross-product and
no out-of-range index. -/
theorem bbox_tiles_outside_empty (tm : TileMatrix) (bbox : BoundingBox)
    (h : tm.row_max bbox < tm.row_min bbox ∨ tm.col_max bbox < tm.col_min bbox) :
    tm.bbox_tiles bbox = [] :=
  bbox_tiles_eq_nil h

theorem bbox_tiles_outside_empty_witness :
    tmEx.col_max bOutside < tmEx.col_min bOutside ∧ tmEx.bbox_tiles bOutside = [] := by
  have h : tmEx.col_max bOutside = -5 :=
    col_max_eval
      (by norm_num [TileMatrix.rd_to_tile, tmEx, bOutside, TileMatrix.span_x, TileMatrix.pixel_span, eps])
      (by norm_num [TileMatrix.rd_to_tile, tmEx, bOutside, TileMatrix.span_x, TileMatrix.pixel_span, eps])
      (by norm_num [tmEx])
  have h2 : tmEx.col_max bOutside < tmEx.col_min bOutside := by
    have := col_min_nonneg tmEx bOutside
    omega
  exact ⟨h2, bbox_tiles_outside_empty tmEx bOutside (Or.inr h2)⟩

/-- C2: for every TileMatrix with strictly positive spans and every
TileIndex within the matrix bounds, `bbox_tiles (tile_bbox i)` includes
`i`. -/
theorem bbox_tiles_tile_bbox_roundtrip (tm : TileMatrix) (i : TileIndex)
    (hsx : 0 < tm.span_x) (hsy : 0 < tm.span_y)
    (hr0 : 0 ≤ i.row) (hrH : i.row ≤ tm.matrix.matrixheight - 1)
    (hc0 : 0 ≤ i.col) (hcW : i.col ≤ tm.matrix.matrixwidth - 1) :
    i ∈ tm.bbox_tiles (tm.tile_bbox i) := by
  have hyu : (tm.rd_to_tile (tm.tile_bbox i).upper).1 = (i.row : ℚ) := by
    unfold TileMatrix.rd_to_tile TileMatrix.tile_bbox
    simp only
    rw [show tm.matrix.topleftcorner.2 - (tm.matrix.topleftcorner.2 - i.row * tm.span_y)
        = i.row * tm.span_y by ring]
    exact mul_div_cancel_right₀ _ hsy.ne'
  have hyl : (tm.rd_to_tile (tm.tile_bbox i).lower).1 = (i.row : ℚ) + 1 := by
    unfold TileMatrix.rd_to_tile TileMatrix.tile_bbox
    simp only
    rw [show tm.matrix.topleftcorner.2 -
          (tm.matrix.topleftcorner.2 - i.row * tm.span_y - tm.span_y)
        = ((i.row : ℚ) + 1) * tm.span_y by ring]
    exact mul_div_cancel_right₀ _ hsy.ne'
  have hxl : (tm.rd_to_tile (tm.tile_bbox i).lower).2 = (i.col : ℚ) := by
    unfold TileMatrix.rd_to_tile TileMatrix.tile_bbox
    simp only
    rw [show i.col * tm.span_x + tm.matrix.topleftcorner.1 - tm.matrix.topleftcorner.1
        = i.col * tm.span_x by ring]
    exact mul_div_cancel_right₀ _ hsx.ne'
  have hxu : (tm.rd_to_tile (tm.tile_bbox i).upper).2 = (i.col : ℚ) + 1 := by
    unfold TileMatrix.rd_to_tile TileMatrix.tile_bbox
    simp only
    rw [show i.col * tm.span_x + tm.matrix.topleftcorner.1 + tm.span_x
          - tm.matrix.topleftcorner.1
        = ((i.col : ℚ) + 1) * tm.span_x by ring]
    exact mul_div_cancel_right₀ _ hsx.ne'
  have e1 : tm.row_min (tm.tile_bbox i) = i.row := by
    unfold TileMatrix.row_min
    rw [hyu, floor_int_add_eps]
    omega
  have e2 : tm.row_max (tm.tile_bbox i) = i.row := by
    unfold TileMatrix.row_max
    rw [hyl, show (i.row : ℚ) + 1 = ((i.row + 1 : ℤ) : ℚ) by push_cast; ring,
      floor_int_sub_eps]
    omega
  have e3 : tm.col_min (tm.tile_bbox i) = i.col := by
    unfold TileMatrix.col_min
    rw [hxl, floor_int_add_eps]
    omega
  have e4 : tm.col_max (tm.tile_bbox i) = i.col := by
    unfold TileMatrix.col_max
    rw [hxu, show (i.col : ℚ) + 1 = ((i.col + 1 : ℤ) : ℚ) by push_cast; ring,
      floor_int_sub_eps]
    omega
  rw [mem_bbox_tiles, e1, e2, e3, e4]
  omega

theorem bbox_tiles_tile_bbox_roundtrip_witness :
    0 < tmEx.span_x ∧ 0 < tmEx.span_y ∧ (0 : ℤ) ≤ 3 ∧
      (3 : ℤ) ≤ tmEx.matrix.matrixheight - 1 ∧ (0 : ℤ) ≤ 4 ∧
      (4 : ℤ) ≤ tmEx.matrix.matrixwidth - 1 ∧
      (⟨3, 4⟩ : TileIndex) ∈ tmEx.bbox_tiles (tmEx.tile_bbox ⟨3, 4⟩) :=
  ⟨by rw [tmEx_span_x]; norm_num, by rw [tmEx_span_y]; norm_num,
   by norm_num, by norm_num [tmEx], by norm_num, by norm_num [tmEx],
   bbox_tiles_tile_bbox_roundtrip tmEx ⟨3, 4⟩ (by rw [tmEx_span_x]; norm_num)
     (by rw [tmEx_span_y]; norm_num) (by norm_num) (by norm_num [tmEx])
     (by norm_num) (by norm_num [tmEx])⟩

theorem intRange_self (k : ℤ) : intRange k k = [k] := by
  unfold intRange
  rw [show (k + 1 - k).toNat = 1 by omega, show List.range 1 = [0] from rfl]
  simp

theorem tmEx_bPoint_inGrid : tmEx.inGrid bPoint := by
  unfold TileMatrix.inGrid
  norm_num [tmEx, bPoint, TileMatrix.span_x, TileMatrix.span_y, TileMatrix.pixel_span]

theorem tmEx_bPoint_empty : tmEx.bbox_tiles bPoint = [] := by
  have h3 : tmEx.col_min bPoint = 1 :=
    col_min_eval
      (by norm_num [TileMatrix.rd_to_tile, tmEx, bPoint, TileMatrix.span_x, TileMatrix.pixel_span, eps])
      (by norm_num [TileMatrix.rd_to_tile, tmEx, bPoint, TileMatrix.span_x, TileMatrix.pixel_span, eps])
      (by norm_num)
  have h4 : tmEx.col_max bPoint = 0 :=
    col_max_eval
      (by norm_num [TileMatrix.rd_to_tile, tmEx, bPoint, TileMatrix.span_x, TileMatrix.pixel_span, eps])
      (by norm_num [TileMatrix.rd_to_tile, tmEx, bPoint, TileMatrix.span_x, TileMatrix.pixel_span, eps])
      (by norm_num [tmEx])
  exact bbox_tiles_eq_nil (Or.inr (by omega))

/-- C4 counterexample: `bPoint` lies fully inside the grid of `tmEx` (which
has positive spans and a positive 10 × 10 extent), yet `bbox_tiles` yields
the empty sequence, refuting non-emptiness for every in-grid box. -/
theorem bbox_tiles_inside_nonempty_cex :
    0 < tmEx.span_x ∧ 0 < tmEx.span_y ∧
    0 < tmEx.matrix.matrixwidth ∧ 0 < tmEx.matrix.matrixheight ∧
    tmEx.inGrid bPoint ∧ tmEx.bbox_tiles bPoint = [] :=
  ⟨by rw [tmEx_span_x]; norm_num, by rw [tmEx_span_y]; norm_num,
   by norm_num [tmEx], by norm_num [tmEx], tmEx_bPoint_inGrid, tmEx_bPoint_empty⟩

/-- C4 (amended): for every TileMatrix and every box whatsoever, each
yielded index lies in `[0, matrix_height - 1] × [0, matrix_width - 1]`
(the clamps of lines 123-126 guarantee this unconditionally); and for a
box fully inside the grid that is moreover at least `2 * eps` thick in
fractional units in both axes (width at least `2 * eps * span_x`, height
at least `2 * eps * span_y`), `bbox_tiles` is non-empty. -/
theorem bbox_tiles_inside_nonempty (tm : TileMatrix) (bbox : BoundingBox) :
    (∀ i ∈ tm.bbox_tiles bbox,
      0 ≤ i.row ∧ i.row ≤ tm.matrix.matrixheight - 1 ∧
      0 ≤ i.col ∧ i.col ≤ tm.matrix.matrixwidth - 1) ∧
    (0 < tm.span_x → 0 < tm.span_y → tm.inGrid bbox →
      2 * eps * tm.span_x ≤ bbox.upper.x - bbox.lower.x →
      2 * eps * tm.span_y ≤ bbox.upper.y - bbox.lower.y →
      tm.bbox_tiles bbox ≠ []) := by
  constructor
  · intro i hi
    rw [mem_bbox_tiles] at hi
    have h1 := row_min_nonneg tm bbox
    have h2 := col_min_nonneg tm bbox
    have h3 := row_max_le tm bbox
    have h4 := col_max_le tm bbox
    omega
  · intro hsx hsy hin htx hty
    obtain ⟨e1, e2, e3, e4, hr, hc⟩ := bounds_pack hsx hsy hin htx hty
    intro hnil
    have hmem : (⟨tm.row_min bbox, tm.col_min bbox⟩ : TileIndex) ∈ tm.bbox_tiles bbox := by
      rw [mem_bbox_tiles]
      dsimp only
      omega
    rw [hnil] at hmem
    exact absurd hmem (List.not_mem_nil _)

theorem bbox_tiles_inside_nonempty_witness :
    tmEx.inGrid bIn ∧
    2 * eps * tmEx.span_x ≤ bIn.upper.x - bIn.lower.x ∧
    2 * eps * tmEx.span_y ≤ bIn.upper.y - bIn.lower.y ∧
    tmEx.bbox_tiles bIn ≠ [] ∧
    ∀ i ∈ tmEx.bbox_tiles bIn,
      0 ≤ i.row ∧ i.row ≤ tmEx.matrix.matrixheight - 1 ∧
      0 ≤ i.col ∧ i.col ≤ tmEx.matrix.matrixwidth - 1 := by
  have h1 : tmEx.inGrid bIn := by
    unfold TileMatrix.inGrid
    norm_num [tmEx, bIn, TileMatrix.span_x, TileMatrix.span_y, TileMatrix.pixel_span]
  have h2 : 2 * eps * tmEx.span_x ≤ bIn.upper.x - bIn.lower.x := by
    rw [tmEx_span_x]
    norm_num [eps, bIn]
  have h3 : 2 * eps * tmEx.span_y ≤ bIn.upper.y - bIn.lower.y := by
    rw [tmEx_span_y]
    norm_num [eps, bIn]
  obtain ⟨g2, g1⟩ := bbox_tiles_inside_nonempty tmEx bIn
  exact ⟨h1, h2, h3,
    g1 (by rw [tmEx_span_x]; norm_num) (by rw [tmEx_span_y]; norm_num) h1 h2 h3, g2⟩

/-- C6 counterexample: the zero-area box `bPoint` lies inside the grid of
`tmEx` (its point is on the tile boundary `x = 100`), yet `bbox_tiles`
yields the empty sequence instead of exactly one containing tile. -/
theorem zero_area_single_tile_cex :
    bPoint.lower = bPoint.upper ∧ tmEx.inGrid bPoint ∧
    (tmEx.bbox_tiles bPoint).length ≠ 1 := by
  refine ⟨rfl, tmEx_bPoint_inGrid, ?_⟩
  rw [tmEx_bPoint_empty]
  norm_num

/-- C6 (amended): a zero-area box whose point lies inside the grid with its
fractional row and column each at distance at least `eps` above the grid
line below and more than `eps` below the grid line above resolves to
exactly the single containing tile. -/
theorem zero_area_single_tile (tm : TileMatrix) (p : Rijksdriehoek)
    (hr0 : 0 ≤ (tm.rd_to_tile p).1)
    (hrH : (tm.rd_to_tile p).1 ≤ (tm.matrix.matrixheight : ℚ))
    (hc0 : 0 ≤ (tm.rd_to_tile p).2)
    (hcW : (tm.rd_to_tile p).2 ≤ (tm.matrix.matrixwidth : ℚ))
    (hfr1 : eps ≤ Int.fract (tm.rd_to_tile p).1)
    (hfr2 : Int.fract (tm.rd_to_tile p).1 + eps < 1)
    (hfc1 : eps ≤ Int.fract (tm.rd_to_tile p).2)
    (hfc2 : Int.fract (tm.rd_to_tile p).2 + eps < 1) :
    tm.bbox_tiles ⟨p, p⟩ = [⟨⌊(tm.rd_to_tile p).1⌋, ⌊(tm.rd_to_tile p).2⌋⟩] := by
  unfold Int.fract at hfr1 hfr2 hfc1 hfc2
  have hfl := Int.floor_le (tm.rd_to_tile p).1
  have hfl' := Int.floor_le (tm.rd_to_tile p).2
  have heps := eps_pos
  have fr1 : ⌊(tm.rd_to_tile p).1 + eps⌋ = ⌊(tm.rd_to_tile p).1⌋ :=
    Int.floor_eq_iff.mpr ⟨by linarith, by linarith⟩
  have fr2 : ⌊(tm.rd_to_tile p).1 - eps⌋ = ⌊(tm.rd_to_tile p).1⌋ :=
    Int.floor_eq_iff.mpr ⟨by linarith, by linarith [Int.lt_floor_add_one (tm.rd_to_tile p).1]⟩
  have fc1 : ⌊(tm.rd_to_tile p).2 + eps⌋ = ⌊(tm.rd_to_tile p).2⌋ :=
    Int.floor_eq_iff.mpr ⟨by linarith, by linarith⟩
  have fc2 : ⌊(tm.rd_to_tile p).2 - eps⌋ = ⌊(tm.rd_to_tile p).2⌋ :=
    Int.floor_eq_iff.mpr ⟨by linarith, by linarith [Int.lt_floor_add_one (tm.rd_to_tile p).2]⟩
  have hrH' : (tm.rd_to_tile p).1 < (tm.matrix.matrixheight : ℚ) := by
    rcases lt_or_eq_of_le hrH with h | h
    · exact h
    · exfalso
      rw [h] at hfr1
      rw [Int.floor_intCast] at hfr1
      simp at hfr1
      linarith
  have hcW' : (tm.rd_to_tile p).2 < (tm.matrix.matrixwidth : ℚ) := by
    rcases lt_or_eq_of_le hcW with h | h
    · exact h
    · exfalso
      rw [h] at hfc1
      rw [Int.floor_intCast] at hfc1
      simp at hfc1
      linarith
  have b1 : ⌊(tm.rd_to_tile p).1⌋ < tm.matrix.matrixheight := Int.floor_lt.mpr hrH'
  have b2 : ⌊(tm.rd_to_tile p).2⌋ < tm.matrix.matrixwidth := Int.floor_lt.mpr hcW'
  have b3 : 0 ≤ ⌊(tm.rd_to_tile p).1⌋ := Int.floor_nonneg.mpr hr0
  have b4 : 0 ≤ ⌊(tm.rd_to_tile p).2⌋ := Int.floor_nonneg.mpr hc0
  have e1 : tm.row_min ⟨p, p⟩ = ⌊(tm.rd_to_tile p).1⌋ := by
    unfold TileMatrix.row_min
    rw [show (BoundingBox.mk p p).upper = p from rfl, fr1]
    omega
  have e2 : tm.row_max ⟨p, p⟩ = ⌊(tm.rd_to_tile p).1⌋ := by
    unfold TileMatrix.row_max
    rw [show (BoundingBox.mk p p).lower = p from rfl, fr2]
    omega
  have e3 : tm.col_min ⟨p, p⟩ = ⌊(tm.rd_to_tile p).2⌋ := by
    unfold TileMatrix.col_min
    rw [show (BoundingBox.mk p p).lower = p from rfl, fc1]
    omega
  have e4 : tm.col_max ⟨p, p⟩ = ⌊(tm.rd_to_tile p).2⌋ := by
    unfold TileMatrix.col_max
    rw [show (BoundingBox.mk p p).upper = p from rfl, fc2]
    omega
  unfold TileMatrix.bbox_tiles
  rw [e1, e2, e3, e4, intRange_self, intRange_self]
  simp

theorem zero_area_single_tile_witness :
    tmEx.bbox_tiles ⟨⟨150, 550⟩, ⟨150, 550⟩⟩ = [⟨4, 1⟩] := by
  have hr : (tmEx.rd_to_tile ⟨150, 550⟩).1 = 9 / 2 := by
    norm_num [TileMatrix.rd_to_tile, tmEx, TileMatrix.span_y, TileMatrix.pixel_span]
  have hc : (tmEx.rd_to_tile ⟨150, 550⟩).2 = 3 / 2 := by
    norm_num [TileMatrix.rd_to_tile, tmEx, TileMatrix.span_x, TileMatrix.pixel_span]
  have f4 : ⌊(9 : ℚ) / 2⌋ = 4 := by
    rw [Int.floor_eq_iff]
    norm_num
  have f1 : ⌊(3 : ℚ) / 2⌋ = 1 := by
    rw [Int.floor_eq_iff]
    norm_num
  have h := zero_area_single_tile tmEx ⟨150, 550⟩
    (by rw [hr]; norm_num) (by rw [hr]; norm_num [tmEx])
    (by rw [hc]; norm_num) (by rw [hc]; norm_num [tmEx])
    (by rw [hr]; unfold Int.fract; rw [f4]; norm_num [eps])
    (by rw [hr]; unfold Int.fract; rw [f4]; norm_num [eps])
    (by rw [hc]; unfold Int.fract; rw [f1]; norm_num [eps])
    (by rw [hc]; unfold Int.fract; rw [f1]; norm_num [eps])
  rw [h, hr, hc, f4, f1]

/-- C1 counterexample: `tmEx` has strictly positive spans and the top edge
of the valid box `bThin` lies exactly on the grid line between rows 0 and 1
(the corner's fractional row is the exact integer 1), yet `bbox_tiles`
yields the empty set, excluding the boundary tile on the box's interior
side (row 1). -/
theorem boundary_exactness_cex :
    0 < tmEx.span_x ∧ 0 < tmEx.span_y ∧
    (tmEx.rd_to_tile bThin.upper).1 = ((1 : ℤ) : ℚ) ∧
    tmEx.bbox_tiles bThin = [] ∧
    ∀ c : ℤ, (⟨1, c⟩ : TileIndex) ∉ tmEx.bbox_tiles bThin := by
  have e1 : tmEx.row_min bThin = 1 :=
    row_min_eval
      (by norm_num [TileMatrix.rd_to_tile, tmEx, bThin, TileMatrix.span_y, TileMatrix.pixel_span, eps])
      (by norm_num [TileMatrix.rd_to_tile, tmEx, bThin, TileMatrix.span_y, TileMatrix.pixel_span, eps])
      (by norm_num)
  have e2 : tmEx.row_max bThin = 0 :=
    row_max_eval
      (by norm_num [TileMatrix.rd_to_tile, tmEx, bThin, TileMatrix.span_y, TileMatrix.pixel_span, eps])
      (by norm_num [TileMatrix.rd_to_tile, tmEx, bThin, TileMatrix.span_y, TileMatrix.pixel_span, eps])
      (by norm_num [tmEx])
  have hnil : tmEx.bbox_tiles bThin = [] := bbox_tiles_eq_nil (Or.inl (by omega))
  refine ⟨by rw [tmEx_span_x]; norm_num, by rw [tmEx_span_y]; norm_num, ?_, hnil, ?_⟩
  · norm_num [TileMatrix.rd_to_tile, tmEx, bThin, TileMatrix.span_y, TileMatrix.pixel_span]
  · intro c
    rw [hnil]
    exact List.not_mem_nil _

/-- C1 (amended): for a box fully inside the grid and at least `2 * eps`
thick in fractional units in both axes, an edge lying exactly on a grid
line follows the epsilon policy: the boundary tile on the box's interior
side is included and every adjacent tile outside that edge is excluded;
stated for all four edges (top, bottom, left, right). -/
theorem boundary_exactness (tm : TileMatrix) (bbox : BoundingBox)
    (hsx : 0 < tm.span_x) (hsy : 0 < tm.span_y) (hin : tm.inGrid bbox)
    (htx : 2 * eps * tm.span_x ≤ bbox.upper.x - bbox.lower.x)
    (hty : 2 * eps * tm.span_y ≤ bbox.upper.y - bbox.lower.y) :
    (∀ k : ℤ, (tm.rd_to_tile bbox.upper).1 = (k : ℚ) →
      (∃ c, (⟨k, c⟩ : TileIndex) ∈ tm.bbox_tiles bbox) ∧
      ∀ c, (⟨k - 1, c⟩ : TileIndex) ∉ tm.bbox_tiles bbox) ∧
    (∀ k : ℤ, (tm.rd_to_tile bbox.lower).1 = (k : ℚ) →
      (∃ c, (⟨k - 1, c⟩ : TileIndex) ∈ tm.bbox_tiles bbox) ∧
      ∀ c, (⟨k, c⟩ : TileIndex) ∉ tm.bbox_tiles bbox) ∧
    (∀ k : ℤ, (tm.rd_to_tile bbox.lower).2 = (k : ℚ) →
      (∃ r, (⟨r, k⟩ : TileIndex) ∈ tm.bbox_tiles bbox) ∧
      ∀ r, (⟨r, k - 1⟩ : TileIndex) ∉ tm.bbox_tiles bbox) ∧
    (∀ k : ℤ, (tm.rd_to_tile bbox.upper).2 = (k : ℚ) →
      (∃ r, (⟨r, k - 1⟩ : TileIndex) ∈ tm.bbox_tiles bbox) ∧
      ∀ r, (⟨r, k⟩ : TileIndex) ∉ tm.bbox_tiles bbox) := by
  obtain ⟨e1, e2, e3, e4, hr, hc⟩ := bounds_pack hsx hsy hin htx hty
  refine ⟨?_, ?_, ?_, ?_⟩
  · intro k hk
    have hmin : tm.row_min bbox = k := by rw [e1, hk, floor_int_add_eps]
    constructor
    · exact ⟨tm.col_min bbox, by rw [mem_bbox_tiles]; dsimp only; omega⟩
    · intro c hmem
      rw [mem_bbox_tiles] at hmem
      dsimp only at hmem
      omega
  · intro k hk
    have hmax : tm.row_max bbox = k - 1 := by rw [e2, hk, floor_int_sub_eps]
    constructor
    · exact ⟨tm.col_min bbox, by rw [mem_bbox_tiles]; dsimp only; omega⟩
    · intro c hmem
      rw [mem_bbox_tiles] at hmem
      dsimp only at hmem
      omega
  · intro k hk
    have hmin : tm.col_min bbox = k := by rw [e3, hk, floor_int_add_eps]
    constructor
    · exact ⟨tm.row_min bbox, by rw [mem_bbox_tiles]; dsimp only; omega⟩
    · intro r hmem
      rw [mem_bbox_tiles] at hmem
      dsimp only at hmem
      omega
  · intro k hk
    have hmax : tm.col_max bbox = k - 1 := by rw [e4, hk, floor_int_sub_eps]
    constructor
    · exact ⟨tm.row_min bbox, by rw [mem_bbox_tiles]; dsimp only; omega⟩
    · intro r hmem
      rw [mem_bbox_tiles] at hmem
      dsimp only at hmem
      omega

theorem boundary_exactness_witness :
    (tmEx.rd_to_tile bEdge.upper).1 = ((1 : ℤ) : ℚ) ∧
    (∃ c, (⟨1, c⟩ : TileIndex) ∈ tmEx.bbox_tiles bEdge) ∧
    ∀ c, (⟨0, c⟩ : TileIndex) ∉ tmEx.bbox_tiles bEdge := by
  have hk : (tmEx.rd_to_tile bEdge.upper).1 = ((1 : ℤ) : ℚ) := by
    norm_num [TileMatrix.rd_to_tile, tmEx, bEdge, TileMatrix.span_y, TileMatrix.pixel_span]
  have h := (boundary_exactness tmEx bEdge
    (by rw [tmEx_span_x]; norm_num) (by rw [tmEx_span_y]; norm_num)
    (by unfold TileMatrix.inGrid
        norm_num [tmEx, bEdge, TileMatrix.span_x, TileMatrix.span_y, TileMatrix.pixel_span])
    (by rw [tmEx_span_x]; norm_num [eps, bEdge])
    (by rw [tmEx_span_y]; norm_num [eps, bEdge])).1 1 hk
  obtain ⟨h1, h2⟩ := h
  refine ⟨hk, h1, fun c => ?_⟩
  have := h2 c
  simpa using this

/-- C7: construction succeeds only when all four capability checks pass,
and each first-failing check fails construction with the configuration
error naming that constraint (in the source's assertion order: layer,
tile matrix set, layer-scheme link, format). -/
theorem mkTileMatrix_validation (w : WebMapTileService)
    (layer tile_system tile_level fmt : String) :
    ((∃ tm, mkTileMatrix w layer tile_system tile_level fmt = .ok tm) →
      ∃ content, w.contents.lookup layer = some content ∧
        (w.tilematrixsets.lookup tile_system).isSome = true ∧
        tile_system ∈ content.tilematrixsetlinks ∧ fmt ∈ content.formats) ∧
    (w.contents.lookup layer = none →
      mkTileMatrix w layer tile_system tile_level fmt = .error "Layer not found.") ∧
    (∀ content, w.contents.lookup layer = some content →
      w.tilematrixsets.lookup tile_system = none →
      mkTileMatrix w layer tile_system tile_level fmt = .error "Tile matrix set not found.") ∧
    (∀ content tms, w.contents.lookup layer = some content →
      w.tilematrixsets.lookup tile_system = some tms →
      tile_system ∉ content.tilematrixsetlinks →
      mkTileMatrix w layer tile_system tile_level fmt = .error "Tile system not found.") ∧
    (∀ content tms, w.contents.lookup layer = some content →
      w.tilematrixsets.lookup tile_system = some tms →
      tile_system ∈ content.tilematrixsetlinks → fmt ∉ content.formats →
      mkTileMatrix w layer tile_system tile_level fmt = .error "Unsupported format.") := by
  refine ⟨?_, ?_, ?_, ?_, ?_⟩
  · rintro ⟨tm, htm⟩
    unfold mkTileMatrix at htm
    rcases hc : w.contents.lookup layer with _ | content <;> rw [hc] at htm
    · exact absurd htm (by simp)
    rcases hs : w.tilematrixsets.lookup tile_system with _ | tms <;> rw [hs] at htm
    · exact absurd htm (by simp)
    dsimp only at htm
    by_cases hl : tile_system ∈ content.tilematrixsetlinks
    · by_cases hf : fmt ∈ content.formats
      · exact ⟨content, rfl, rfl, hl, hf⟩
      · rw [if_pos hl, if_neg hf] at htm
        exact absurd htm (by simp)
    · rw [if_neg hl] at htm
      exact absurd htm (by simp)
  · intro h
    unfold mkTileMatrix
    rw [h]
  · intro content hc hs
    unfold mkTileMatrix
    rw [hc, hs]
  · intro content tms hc hs hl
    unfold mkTileMatrix
    rw [hc, hs]
    dsimp only
    rw [if_neg hl]
  · intro content tms hc hs hl hf
    unfold mkTileMatrix
    rw [hc, hs]
    dsimp only
    rw [if_pos hl, if_neg hf]

theorem mkTileMatrix_validation_witness :
    wEx.contents.lookup "bad_layer" = none ∧
    mkTileMatrix wEx "bad_layer" "nl_grid" "12" "image/jpeg" = .error "Layer not found." := by
  have h : wEx.contents.lookup "bad_layer" = none := by rfl
  exact ⟨h, (mkTileMatrix_validation wEx "bad_layer" "nl_grid" "12" "image/jpeg").2.1 h⟩

theorem tmEx_bMalformed_tiles : tmEx.bbox_tiles bMalformed = [⟨9, 0⟩] := by
  have e1 : tmEx.row_min bMalformed = 9 :=
    row_min_eval
      (by norm_num [TileMatrix.rd_to_tile, tmEx, bMalformed, TileMatrix.span_y, TileMatrix.pixel_span, eps])
      (by norm_num [TileMatrix.rd_to_tile, tmEx, bMalformed, TileMatrix.span_y, TileMatrix.pixel_span, eps])
      (by norm_num)
  have e2 : tmEx.row_max bMalformed = 9 :=
    row_max_eval
      (by norm_num [TileMatrix.rd_to_tile, tmEx, bMalformed, TileMatrix.span_y, TileMatrix.pixel_span, eps])
      (by norm_num [TileMatrix.rd_to_tile, tmEx, bMalformed, TileMatrix.span_y, TileMatrix.pixel_span, eps])
      (by norm_num [tmEx])
  have e3 : tmEx.col_min bMalformed = 0 :=
    col_min_eval
      (by norm_num [TileMatrix.rd_to_tile, tmEx, bMalformed, TileMatrix.span_x, TileMatrix.pixel_span, eps])
      (by norm_num [TileMatrix.rd_to_tile, tmEx, bMalformed, TileMatrix.span_x, TileMatrix.pixel_span, eps])
      (by norm_num)
  have e4 : tmEx.col_max bMalformed = 0 :=
    col_max_eval
      (by norm_num [TileMatrix.rd_to_tile, tmEx, bMalformed, TileMatrix.span_x, TileMatrix.pixel_span, eps])
      (by norm_num [TileMatrix.rd_to_tile, tmEx, bMalformed, TileMatrix.span_x, TileMatrix.pixel_span, eps])
      (by norm_num [tmEx])
  unfold TileMatrix.bbox_tiles
  rw [e1, e2, e3, e4, intRange_self, intRange_self]
  simp

/-- C8 counterexample: `bMalformed` has `lower > upper` in both
coordinates, yet no rejection happens: `bbox_tiles` yields a tile and a
run of `fetch` attempts its retrieval (the code defines no GeometryError
and never validates the box). -/
theorem malformed_bbox_rejected_cex :
    bMalformed.upper.x < bMalformed.lower.x ∧ bMalformed.upper.y < bMalformed.lower.y ∧
    tmEx.bbox_tiles bMalformed = [⟨9, 0⟩] ∧
    performsRetrieval (tmEx.fetchTrace "tmp" bMalformed 1 none) := by
  have htr : tmEx.fetchTrace "tmp" bMalformed 1 none =
      [FetchEvent.mkdtemp,
       FetchEvent.gettile ⟨9, 0⟩ (tileFilename "tmp" ⟨9, 0⟩ (formatExt tmEx.format)),
       FetchEvent.yielded ⟨⟨9, 0⟩, tileFilename "tmp" ⟨9, 0⟩ (formatExt tmEx.format),
         tmEx.tile_bbox ⟨9, 0⟩⟩] := by
    unfold TileMatrix.fetchTrace
    rw [tmEx_bMalformed_tiles]
    rfl
  refine ⟨by norm_num [bMalformed], by norm_num [bMalformed], tmEx_bMalformed_tiles, ?_⟩
  refine ⟨⟨9, 0⟩, tileFilename "tmp" ⟨9, 0⟩ (formatExt tmEx.format), ?_⟩
  rw [htr]
  simp

/-- C8 (amended): the code performs no bounding-box validation and defines
no GeometryError: a malformed box flows through the same index arithmetic
and can even trigger retrievals (see the counterexample); only when the
inversion is at least one tile span (here `lower.y - upper.y ≥ span_y`)
is the index set empty, so that `fetch` performs no retrieval. -/
theorem malformed_bbox_no_retrieval (tm : TileMatrix) (bbox : BoundingBox)
    (dir_path : String) (pulls : ℕ) (failAt : Option ℕ)
    (hsy : 0 < tm.span_y)
    (hinv : tm.span_y ≤ bbox.lower.y - bbox.upper.y) :
    tm.bbox_tiles bbox = [] ∧
    ¬ performsRetrieval (tm.fetchTrace dir_path bbox pulls failAt) := by
  have h1 : (tm.rd_to_tile bbox.lower).1 + 1 ≤ (tm.rd_to_tile bbox.upper).1 := by
    unfold TileMatrix.rd_to_tile
    simp only
    have hd : 1 ≤ ((tm.matrix.topleftcorner.2 - bbox.upper.y)
        - (tm.matrix.topleftcorner.2 - bbox.lower.y)) / tm.span_y := by
      rw [le_div_iff₀ hsy]
      linarith
    rw [← div_sub_div_same] at hd
    linarith
  have hempty : tm.bbox_tiles bbox = [] := by
    apply bbox_tiles_eq_nil (Or.inl ?_)
    have heps := eps_pos
    have hle : (tm.rd_to_tile bbox.lower).1 - eps + 1 ≤ (tm.rd_to_tile bbox.upper).1 + eps := by
      linarith
    have hfl : ⌊(tm.rd_to_tile bbox.lower).1 - eps⌋ + 1 ≤ ⌊(tm.rd_to_tile bbox.upper).1 + eps⌋ := by
      calc ⌊(tm.rd_to_tile bbox.lower).1 - eps⌋ + 1
          = ⌊(tm.rd_to_tile bbox.lower).1 - eps + 1⌋ := (Int.floor_add_one _).symm
        _ ≤ ⌊(tm.rd_to_tile bbox.upper).1 + eps⌋ := Int.floor_le_floor hle
    unfold TileMatrix.row_min TileMatrix.row_max
    have := min_le_left ⌊(tm.rd_to_tile bbox.lower).1 - eps⌋ (tm.matrix.matrixheight - 1)
    have := le_max_left ⌊(tm.rd_to_tile bbox.upper).1 + eps⌋ (0 : ℤ)
    omega
  refine ⟨hempty, ?_⟩
  rintro ⟨i, fn, hmem⟩
  cases pulls with
  | zero =>
    rw [show tm.fetchTrace dir_path bbox 0 failAt = [] from rfl] at hmem
    exact absurd hmem (List.not_mem_nil _)
  | succ n =>
    rw [show tm.fetchTrace dir_path bbox (n + 1) failAt = FetchEvent.mkdtemp ::
        fetchRun tm dir_path (tm.bbox_tiles bbox) (n + 1) failAt 0 from rfl, hempty] at hmem
    simp [fetchRun] at hmem

theorem malformed_bbox_no_retrieval_witness :
    0 < tmEx.span_y ∧ tmEx.span_y ≤ bInverted.lower.y - bInverted.upper.y ∧
    tmEx.bbox_tiles bInverted = [] ∧
    ¬ performsRetrieval (tmEx.fetchTrace "tmp" bInverted 5 none) := by
  have h1 : 0 < tmEx.span_y := by
    rw [tmEx_span_y]
    norm_num
  have h2 : tmEx.span_y ≤ bInverted.lower.y - bInverted.upper.y := by
    rw [tmEx_span_y]
    norm_num [bInverted]
  obtain ⟨g1, g2⟩ := malformed_bbox_no_retrieval tmEx bInverted "tmp" 5 none h1 h2
  exact ⟨h1, h2, g1, g2⟩

theorem rmtree_mem_fetchRun (tm : TileMatrix) (dir_path : String) (plan : List TileIndex)
    (pulls : ℕ) (failAt : Option ℕ) (k : ℕ) :
    FetchEvent.rmtree ∈ fetchRun tm dir_path plan pulls failAt k ↔
      (plan.length < pulls ∧ ∀ j, j < plan.length → failAt ≠ some (k + j)) := by
  induction plan generalizing pulls k with
  | nil =>
    cases pulls with
    | zero => simp [fetchRun]
    | succ n => simp [fetchRun]
  | cons i rest ih =>
    cases pulls with
    | zero => simp [fetchRun]
    | succ n =>
      have hred : fetchRun tm dir_path (i :: rest) (n + 1) failAt k =
          (if failAt = some k then
            [FetchEvent.gettile i (tileFilename dir_path i (formatExt tm.format))]
          else
            FetchEvent.gettile i (tileFilename dir_path i (formatExt tm.format)) ::
              FetchEvent.yielded ⟨i, tileFilename dir_path i (formatExt tm.format),
                tm.tile_bbox i⟩ ::
                fetchRun tm dir_path rest n failAt (k + 1)) := rfl
      rw [hred]
      by_cases hf : failAt = some k
      · rw [if_pos hf]
        simp only [List.mem_singleton]
        constructor
        · intro h
          exact absurd h (by simp)
        · rintro ⟨h1, h2⟩
          exact absurd (show failAt = some (k + 0) from by rw [Nat.add_zero]; exact hf)
            (h2 0 (by simp))
      · rw [if_neg hf]
        simp only [List.mem_cons]
        rw [show (FetchEvent.rmtree = FetchEvent.gettile i
            (tileFilename dir_path i (formatExt tm.format))) = False from by simp,
          show (FetchEvent.rmtree = FetchEvent.yielded ⟨i,
            tileFilename dir_path i (formatExt tm.format), tm.tile_bbox i⟩) = False from by simp,
          ih]
        simp only [false_or, List.length_cons]
        constructor
        · rintro ⟨h1, h2⟩
          refine ⟨by omega, ?_⟩
          intro j hj
          match j with
          | 0 => simpa using hf
          | j + 1 =>
            rw [show k + (j + 1) = k + 1 + j by omega]
            exact h2 j (by omega)
        · rintro ⟨h1, h2⟩
          refine ⟨by omega, ?_⟩
          intro j hj
          rw [show k + 1 + j = k + (j + 1) by omega]
          exact h2 (j + 1) (by omega)

/-- C9 (amended): the cleanup of the temporary directory happens exactly on
normal completion: `rmtree` occurs in the trace of a `fetch` run iff the
consumer pulls past the last planned tile and no individual retrieval
fails; early termination by the consumer or a failing retrieval skips the
cleanup (the `shutil.rmtree` after the loop is not in a try/finally). -/
theorem fetch_cleanup_iff (tm : TileMatrix) (dir_path : String) (bbox : BoundingBox)
    (pulls : ℕ) (failAt : Option ℕ) :
    FetchEvent.rmtree ∈ tm.fetchTrace dir_path bbox pulls failAt ↔
      ((tm.bbox_tiles bbox).length < pulls ∧
       ∀ j, j < (tm.bbox_tiles bbox).length → failAt ≠ some j) := by
  cases pulls with
  | zero =>
    rw [show tm.fetchTrace dir_path bbox 0 failAt = [] from rfl]
    simp
  | succ n =>
    rw [show tm.fetchTrace dir_path bbox (n + 1) failAt = FetchEvent.mkdtemp ::
        fetchRun tm dir_path (tm.bbox_tiles bbox) (n + 1) failAt 0 from rfl]
    rw [List.mem_cons, rmtree_mem_fetchRun]
    simp

theorem tmEx_bOne_tiles : tmEx.bbox_tiles bOne = [⟨0, 0⟩] := by
  have e1 : tmEx.row_min bOne = 0 :=
    row_min_eval
      (by norm_num [TileMatrix.rd_to_tile, tmEx, bOne, TileMatrix.span_y, TileMatrix.pixel_span, eps])
      (by norm_num [TileMatrix.rd_to_tile, tmEx, bOne, TileMatrix.span_y, TileMatrix.pixel_span, eps])
      (by norm_num)
  have e2 : tmEx.row_max bOne = 0 :=
    row_max_eval
      (by norm_num [TileMatrix.rd_to_tile, tmEx, bOne, TileMatrix.span_y, TileMatrix.pixel_span, eps])
      (by norm_num [TileMatrix.rd_to_tile, tmEx, bOne, TileMatrix.span_y, TileMatrix.pixel_span, eps])
      (by norm_num [tmEx])
  have e3 : tmEx.col_min bOne = 0 :=
    col_min_eval
      (by norm_num [TileMatrix.rd_to_tile, tmEx, bOne, TileMatrix.span_x, TileMatrix.pixel_span, eps])
      (by norm_num [TileMatrix.rd_to_tile, tmEx, bOne, TileMatrix.span_x, TileMatrix.pixel_span, eps])
      (by norm_num)
  have e4 : tmEx.col_max bOne = 0 :=
    col_max_eval
      (by norm_num [TileMatrix.rd_to_tile, tmEx, bOne, TileMatrix.span_x, TileMatrix.pixel_span, eps])
      (by norm_num [TileMatrix.rd_to_tile, tmEx, bOne, TileMatrix.span_x, TileMatrix.pixel_span, eps])
      (by norm_num [tmEx])
  unfold TileMatrix.bbox_tiles
  rw [e1, e2, e3, e4, intRange_self]
  simp

/-- C9 counterexample: on a one-tile box, a consumer that terminates early
(after consuming the first tile) ends the iteration, yet the cleanup event
never occurs in the trace; likewise when the single retrieval fails.  This
refutes cleanup on every exit path. -/
theorem fetch_cleanup_cex :
    tmEx.bbox_tiles bOne = [⟨0, 0⟩] ∧
    FetchEvent.rmtree ∉ tmEx.fetchTrace "tmp" bOne 1 none ∧
    FetchEvent.rmtree ∉ tmEx.fetchTrace "tmp" bOne 2 (some 0) := by
  have htr1 : tmEx.fetchTrace "tmp" bOne 1 none =
      [FetchEvent.mkdtemp,
       FetchEvent.gettile ⟨0, 0⟩ (tileFilename "tmp" ⟨0, 0⟩ (formatExt tmEx.format)),
       FetchEvent.yielded ⟨⟨0, 0⟩, tileFilename "tmp" ⟨0, 0⟩ (formatExt tmEx.format),
         tmEx.tile_bbox ⟨0, 0⟩⟩] := by
    unfold TileMatrix.fetchTrace
    rw [tmEx_bOne_tiles]
    rfl
  have htr2 : tmEx.fetchTrace "tmp" bOne 2 (some 0) =
      [FetchEvent.mkdtemp,
       FetchEvent.gettile ⟨0, 0⟩ (tileFilename "tmp" ⟨0, 0⟩ (formatExt tmEx.format))] := by
    unfold TileMatrix.fetchTrace
    rw [tmEx_bOne_tiles]
    rfl
  refine ⟨tmEx_bOne_tiles, ?_, ?_⟩
  · rw [htr1]
    simp
  · rw [htr2]
    simp

end Amstelkant
